import Mathlib

/-!
# Verification of the TV-reminders display system (`app.py`)

A shallow embedding of the algorithmic core of the reminders dashboard:
the screen paginator (`calculate_pagination_info`), the working-day
calculator (`get_next_working_day`, `get_next_working_day_name`), the
loan-string parser (`parse_loan_string`), the time formatter
(`parse_time_safely`, `format_time_for_display`), the loan display
formatter (`format_loans_for_display`), the reminder organizer
(`get_all_reminders_organized`) and the create/edit request handler
(`manage_reminders`, POST branch).

Modelling conventions:
* Python lists become `List`; Python strings become `String` (their
  comparison is lexicographic by code point in both worlds, and Lean's
  Mathlib order on `String` is exactly that).
* Calendar dates are modelled as day ordinals (`Nat`, day 0 = 0001-01-01
  of the proleptic Gregorian calendar, which is a Monday), so Python's
  `date.weekday()` (Monday = 0) becomes `d % 7`.  Adding a `timedelta`
  of `k` days is `d + k`.
* `datetime.now()` is passed in explicitly as a `today` parameter.
* The `while` loop of the paginator is embedded with explicit fuel
  (`Option` result); `none` models non-termination of the source loop.
-/

namespace Reminders

/-! ## Screen paginator (`calculate_pagination_info`, app.py 461-508) -/

/-- One screen of the TV display: the Python dict
`{'today_reminders': ..., 'tomorrow_reminders': ...}`. -/
structure Screen (α : Type) where
  today_reminders : List α
  tomorrow_reminders : List α
deriving DecidableEq, Repr

/-- The result dict of `calculate_pagination_info`. -/
structure PaginationInfo (α : Type) where
  needs_pagination : Bool
  total_screens : Nat
  screens : List (Screen α)
deriving DecidableEq, Repr

/-- The outer `while remaining_today or remaining_tomorrow` loop of
`calculate_pagination_info` (app.py 486-502), with explicit fuel.
Each iteration drains up to `maxPer` items from the front of the
remaining today-queue and fills the remaining slots from the front of
the remaining tomorrow-queue (`List.take`/`List.drop` model the two
inner `pop(0)` loops).  `none` means the fuel ran out, i.e. the source
loop would still be running. -/
def buildScreens {α : Type} (maxPer : Nat) : Nat → List α → List α → Option (List (Screen α))
  | fuel, today, tomorrow =>
    if today.isEmpty && tomorrow.isEmpty then
      some []
    else
      match fuel with
      | 0 => none
      | fuel + 1 =>
        let screenToday := today.take maxPer
        let space := maxPer - screenToday.length
        let screenTomorrow := tomorrow.take space
        (buildScreens maxPer fuel (today.drop maxPer) (tomorrow.drop space)).map
          (fun rest => ⟨screenToday, screenTomorrow⟩ :: rest)

/-- `calculate_pagination_info` (app.py 461-508).  `today_items` is the
today-reminder list with the active loans appended (`today_items.extend(active_loans)`).
The fuel given to the loop is the total number of items, which is enough
whenever `1 ≤ max_per_screen` (see the termination theorem); a `none`
result models the loop running forever. -/
def calculate_pagination_info {α : Type} (today_reminders tomorrow_reminders : List α)
    (active_loans : List α) (max_per_screen : Nat) : Option (PaginationInfo α) :=
  let today_items := today_reminders ++ active_loans
  let total_items := today_items.length + tomorrow_reminders.length
  if total_items ≤ max_per_screen then
    some { needs_pagination := false
           total_screens := 1
           screens := [⟨today_items, tomorrow_reminders⟩] }
  else
    (buildScreens max_per_screen total_items today_items tomorrow_reminders).map
      (fun screens => { needs_pagination := true
                        total_screens := screens.length
                        screens := screens })

/-- Spec-side pagination (§4.4 of the spec, used for the refinement
claim): "repeatedly build screens: each screen first drains from the
front of the remaining today-queue up to `capacity` slots, then — if
capacity remains on that screen — drains from the front of the
remaining tomorrow-queue to fill the rest.  Continue until both queues
are empty."  The capacity is `c + 1`, so it is positive and the
recursion terminates. -/
def drainSpec {α : Type} (c : Nat) : List α → List α → List (Screen α)
  | today, tomorrow =>
    if h : today.isEmpty && tomorrow.isEmpty then
      []
    else
      let st := today.take (c + 1)
      let space := c + 1 - st.length
      ⟨st, tomorrow.take space⟩ ::
        drainSpec c (today.drop (c + 1)) (tomorrow.drop space)
termination_by today tomorrow => today.length + tomorrow.length
decreasing_by
  simp only [Bool.and_eq_true, List.isEmpty_iff, not_and_or] at h
  rcases h with h | h
  · have h1 : 0 < today.length := List.length_pos.mpr h
    simp only [List.length_drop, List.length_take]
    omega
  · have h1 : 0 < tomorrow.length := List.length_pos.mpr h
    simp only [List.length_drop, List.length_take]
    omega

/-! ## Working-day calculator (app.py 281-328)

Dates are day ordinals with day 0 = Monday, so `d % 7` is Python's
`date.weekday()` (Monday = 0 … Sunday = 6). -/

/-- Python's `date.weekday()` on the ordinal-day model. -/
def weekday (d : Nat) : Nat := d % 7

/-- `get_next_working_day` (app.py 281-289): Friday jumps three days to
Monday, every other day moves one day forward. -/
def get_next_working_day (today : Nat) : Nat :=
  if weekday today = 4 then today + 3 else today + 1

/-- `get_next_working_day_name` (app.py 292-299). -/
def get_next_working_day_name (today : Nat) : String :=
  if weekday today = 4 then "Monday" else "Tomorrow"

/-- `is_today_friday` (app.py 313-317), with `datetime.now()` passed in. -/
def is_today_friday (today : Nat) : Bool := weekday today = 4

/-- `is_monday` (app.py 320-328) on an already-parsed date ordinal. -/
def is_monday_ord (d : Nat) : Bool := weekday d = 0

/-- `is_weekend` (app.py 302-310) on an already-parsed date ordinal. -/
def is_weekend_ord (d : Nat) : Bool := 5 ≤ weekday d

/-! ## String helpers

Python string primitives used by the loan parser, the time parser and
the form handler, modelled on `List Char` (Python compares strings by
code point, exactly Lean's `Char` order). -/

/-- Python's default `str.strip()` whitespace set (ASCII part; the
inputs of this system are ASCII). -/
def pyIsSpace (c : Char) : Bool :=
  c = ' ' || c = '\t' || c = '\n' || c = '\x0b' || c = '\x0c' || c = '\r'

/-- `str.strip()`: drop whitespace from both ends. -/
def pyStrip (l : List Char) : List Char :=
  ((l.dropWhile pyIsSpace).reverse.dropWhile pyIsSpace).reverse

/-- `str.strip()` on `String`. -/
def pyStripStr (s : String) : String := (pyStrip s.toList).asString

/-- `str.rfind(c)` for a single-character needle: index of the last
occurrence, `none` for Python's `-1`. -/
def rfindChar (c : Char) : List Char → Option Nat
  | [] => none
  | x :: xs =>
    match rfindChar c xs with
    | some i => some (i + 1)
    | none => if x = c then some 0 else none

/-- Index of the first occurrence of the substring `pat` (Python's
`str.find(pat)` for a non-empty needle), `none` for `-1`. -/
def findSub (pat : List Char) : List Char → Option Nat
  | [] => if pat.isPrefixOf ([] : List Char) then some 0 else none
  | x :: xs =>
    if pat.isPrefixOf (x :: xs) then some 0
    else (findSub pat xs).map (· + 1)

/-- Python's `sep in s` / `s.split(sep, 1)` splitting on a single
character `sep` (used for `':'` in time strings and `'-'` in date
strings): the list of segments between the separators. -/
def splitOnChar (sep : Char) : List Char → List (List Char)
  | [] => [[]]
  | c :: cs =>
    if c = sep then
      [] :: splitOnChar sep cs
    else
      match splitOnChar sep cs with
      | [] => [[c]]
      | seg :: rest => (c :: seg) :: rest

/-- Digit character for `n < 10` (code point `48 + n`). -/
def digitChar (n : Nat) : Char := Char.ofNat (48 + n)

/-- Decimal rendering of a natural number, the model of Python's
`str(n)` (and of `int.__format__`/`strftime` digit output).  The fuel
`n + 1` always suffices because a number has at most `n + 1` digits. -/
def natCharsAux : Nat → Nat → List Char
  | 0, _ => []
  | fuel + 1, n =>
    if n < 10 then [digitChar n]
    else natCharsAux fuel (n / 10) ++ [digitChar (n % 10)]

/-- Decimal rendering of `n`, e.g. `natChars 207 = ['2','0','7']`. -/
def natChars (n : Nat) : List Char := natCharsAux (n + 1) n

/-- Python's `str(n)` for a natural number. -/
def pyStr (n : Nat) : String := (natChars n).asString

/-- Numeric value of a digit string (`int(s)` on digits). -/
def digitsToNat (l : List Char) : Nat :=
  l.foldl (fun a c => a * 10 + (c.toNat - 48)) 0

/-- Two-digit zero-padded rendering, the model of `strftime`'s `%H`,
`%M`, `%S`, `%I` output (all values rendered are `< 100`). -/
def pad2 (n : Nat) : List Char :=
  if n < 10 then '0' :: natChars n else natChars n

/-- An `HH:MM:SS` string as written by
`time_obj.strftime('%H:%M:%S')` (app.py 640). -/
def timeString (h m s : Nat) : String :=
  (pad2 h ++ ':' :: pad2 m ++ ':' :: pad2 s).asString

/-! ## Loan-string parser (`parse_loan_string`, app.py 211-249) -/

/-- The record returned by `parse_loan_string`. -/
structure LoanRecord where
  student : String
  item : String
  days : String
deriving DecidableEq, Repr

/-- The separator `" - "` used by `parse_loan_string`. -/
def loanSep : List Char := [' ', '-', ' ']

/-- `parse_loan_string` (app.py 211-249) on a character list.
Locate the last `'('`; if a `')'` occurs at or after it, `days` is the
text between the last `'('` and the last `')'` (exclusive) and the
remainder is the stripped prefix before the last `'('`; otherwise
`days = ""` and the remainder is the whole stripped string.  If the
remainder contains `" - "`, split at its first occurrence and strip
both parts; else the student is the remainder (`"Unknown"` if empty)
and the item is `"Unknown"`.  None of these operations can raise, so
the source's `except` fallback (app.py 243-249) is unreachable. -/
def parseLoanChars (s : List Char) : LoanRecord :=
  let (days, clean) :=
    match rfindChar '(' s with
    | some i =>
      if (s.drop i).contains ')' then
        match rfindChar ')' s with
        | some j => ((s.drop (i + 1)).take (j - (i + 1)), pyStrip (s.take i))
        | none => ([], pyStrip s)
      else ([], pyStrip s)
    | none => ([], pyStrip s)
  match findSub loanSep clean with
  | some k =>
    { student := (pyStrip (clean.take k)).asString
      item := (pyStrip (clean.drop (k + 3))).asString
      days := days.asString }
  | none =>
    { student := (if clean.isEmpty then "Unknown".toList else clean).asString
      item := "Unknown"
      days := days.asString }

/-- `parse_loan_string` on a `String`. -/
def parse_loan_string (s : String) : LoanRecord := parseLoanChars s.toList

/-- Loan parser written from the words of the spec/claim (§4.2), for
the refinement comparison.  It differs from the source only in the
separator case: the claim says "left part is student, trimmed right
part is item", i.e. the left part is NOT trimmed. -/
def parseLoanClaimed (s : String) : LoanRecord :=
  let cs := s.toList
  let (days, remainder) :=
    match rfindChar '(' cs with
    | some i =>
      if (cs.drop i).contains ')' then
        match rfindChar ')' cs with
        | some j => ((cs.drop (i + 1)).take (j - (i + 1)), pyStrip (cs.take i))
        | none => ([], pyStrip cs)
      else ([], pyStrip cs)
    | none => ([], pyStrip cs)
  match findSub loanSep remainder with
  | some k =>
    { student := (remainder.take k).asString
      item := (pyStrip (remainder.drop (k + 3))).asString
      days := days.asString }
  | none =>
    { student := (if remainder.isEmpty then "Unknown".toList else remainder).asString
      item := "Unknown"
      days := days.asString }

/-- The claim amended at its one divergence: both split parts are
trimmed.  This is `parseLoanClaimed` with `student` trimmed, and it is
proved equal to the source `parse_loan_string` on every input. -/
def parseLoanAmended (s : String) : LoanRecord :=
  let cs := s.toList
  let (days, remainder) :=
    match rfindChar '(' cs with
    | some i =>
      if (cs.drop i).contains ')' then
        match rfindChar ')' cs with
        | some j => ((cs.drop (i + 1)).take (j - (i + 1)), pyStrip (cs.take i))
        | none => ([], pyStrip cs)
      else ([], pyStrip cs)
    | none => ([], pyStrip cs)
  match findSub loanSep remainder with
  | some k =>
    { student := (pyStrip (remainder.take k)).asString
      item := (pyStrip (remainder.drop (k + 3))).asString
      days := days.asString }
  | none =>
    { student := (if remainder.isEmpty then "Unknown".toList else remainder).asString
      item := "Unknown"
      days := days.asString }

/-! ## Time parsing and formatting (app.py 342-367)

`datetime.strptime(s, '%H:%M:%S')` matches iff `s` splits at `':'` into
exactly three runs of digits, of one or two digits each, with values
`≤ 23 / ≤ 59 / ≤ 59`; likewise `'%H:%M'` with two runs.  (The `%S`
pattern itself also admits the leap-second values 60-61, but the
`datetime` constructor then raises `ValueError`, which
`parse_time_safely` treats exactly like a match failure, so `≤ 59` is
the net behaviour.) -/

/-- One `strptime` field of at most two digits with value `≤ maxv`. -/
def fieldVal (maxv : Nat) (seg : List Char) : Option Nat :=
  if (seg.length = 1 ∨ seg.length = 2) ∧ seg.all Char.isDigit then
    let v := digitsToNat seg
    if v ≤ maxv then some v else none
  else none

/-- `parse_time_safely` (app.py 342-357): `None`/empty → `none`; try
`'%H:%M:%S'` first, then `'%H:%M'` (which yields seconds 0). -/
def parse_time_safely (time_str : Option String) : Option (Nat × Nat × Nat) :=
  match time_str with
  | none => none
  | some s =>
    if s = "" then none
    else
      match splitOnChar ':' s.toList with
      | [a, b, c] =>
        match fieldVal 23 a, fieldVal 59 b, fieldVal 59 c with
        | some h, some m, some sec => some (h, m, sec)
        | _, _, _ => none
      | [a, b] =>
        match fieldVal 23 a, fieldVal 59 b with
        | some h, some m => some (h, m, 0)
        | _, _ => none
      | _ => none

/-- `time_obj.strftime('%I:%M %p')`: 12-hour clock with AM/PM suffix
(`%I` maps hour 0 to 12 and hours 13-23 to 01-11). -/
def render12 (h m : Nat) : String :=
  (pad2 (if h % 12 = 0 then 12 else h % 12) ++ ':' :: pad2 m ++
    ' ' :: (if h < 12 then ['A', 'M'] else ['P', 'M'])).asString

/-- `format_time_for_display` (app.py 360-367). -/
def format_time_for_display (time_str : Option String) : String :=
  match parse_time_safely time_str with
  | some (h, m, _) => render12 h m
  | none => "All Day"

/-! ## Loan display formatter (`format_loans_for_display`, app.py 252-278) -/

/-- The display dict built for one loan (app.py 261-275).  `date` holds
`datetime.now().strftime('%Y-%m-%d')`, passed in as `todayStr`. -/
structure LoanItem where
  id : String
  title : String
  time_display : String
  date : String
  date_display : String
  is_loan : Bool
  student : String
  item : String
  days : String
  original : String
deriving DecidableEq, Repr

/-- The loan item built at position `k` of the batch
(`id = f'loan_{len(formatted_loans)}'` with `len(formatted_loans) = k`). -/
def mkLoanItem (todayStr : String) (k : Nat) (loan : String) : LoanItem :=
  let parsed := parse_loan_string loan
  { id := "loan_" ++ pyStr k
    title := loan
    time_display := "LOAN"
    date := todayStr
    date_display := "Today"
    is_loan := true
    student := parsed.student
    item := parsed.item
    days := parsed.days
    original := loan }

/-- The loop of `format_loans_for_display`, carrying the length of the
output built so far. -/
def formatLoansAux (todayStr : String) : Nat → List String → List LoanItem
  | _, [] => []
  | k, loan :: rest => mkLoanItem todayStr k loan :: formatLoansAux todayStr (k + 1) rest

/-- `format_loans_for_display` (app.py 252-278). -/
def format_loans_for_display (active_loans : List String) (todayStr : String) : List LoanItem :=
  formatLoansAux todayStr 0 active_loans

/-! ## Reminder organizer (`get_all_reminders_organized`, app.py 401-458)

A stored reminder row carries its date as a `'YYYY-MM-DD'` string; the
organizer both parses it (for the partition against today) and compares
it lexicographically (in the sort key).  On zero-padded `'YYYY-MM-DD'`
strings the two orders coincide and are isomorphic to the day-ordinal
order, so rows here carry the date as its day ordinal directly (a row
whose date string did not parse would make the source raise before
producing any output, so such rows are outside this model). -/

/-- A reminder row as the organizer sees it (fields it reads). -/
structure Reminder where
  id : Nat
  date : Nat
  time : Option String
  title : String
deriving DecidableEq, Repr

/-- `get_sort_key` (app.py 401-406): the pair (date, time with a null
time replaced by the sentinel `'23:59:59'`). -/
def get_sort_key (r : Reminder) : Nat × String :=
  (r.date, r.time.getD "23:59:59")

/-- Comparison of two sort keys, as Python compares the tuples returned
by `get_sort_key`: by date, then lexicographically on the time string. -/
def keyLe (a b : Nat × String) : Bool :=
  decide (a.1 < b.1 ∨ (a.1 = b.1 ∧ a.2 ≤ b.2))

/-- A reminder row decorated for display (the fields
`get_all_reminders_organized` adds at app.py 432-439; the pretty
`date_display` label is omitted, no claim mentions it). -/
structure DisplayReminder where
  base : Reminder
  time_display : String
  is_weekend : Bool
  is_monday_next_working_day : Bool
  is_loan : Bool
deriving DecidableEq, Repr

/-- The decoration of one fetched row (app.py 430-439). -/
def decorate (today : Nat) (r : Reminder) : DisplayReminder :=
  { base := r
    time_display := format_time_for_display r.time
    is_weekend := is_weekend_ord r.date
    is_monday_next_working_day := is_monday_ord r.date && is_today_friday today
    is_loan := false }

/-- `get_all_reminders_organized` (app.py 409-458) on an already
fetched row list: decorate every row, partition against `today`
(`reminder_date >= today` → current, else old), then sort current
ascending and old descending by `get_sort_key` (`list.sort` is a
stable sort, as is `List.mergeSort`; `reverse=True` is the flipped
comparison). -/
def get_all_reminders_organized (rows : List Reminder) (today : Nat) :
    List DisplayReminder × List DisplayReminder :=
  let dec := rows.map (decorate today)
  let current := dec.filter (fun d => today ≤ d.base.date)
  let old := dec.filter (fun d => ¬ today ≤ d.base.date)
  (current.mergeSort (fun a b => keyLe (get_sort_key a.base) (get_sort_key b.base)),
   old.mergeSort (fun a b => keyLe (get_sort_key b.base) (get_sort_key a.base)))

/-! ## Date-string parsing (`datetime.strptime(s, '%Y-%m-%d')`)

`%Y` matches exactly four digits, `%m` one or two digits with value
1-12, `%d` one or two digits with value 1-31; the `date` constructor
then requires `year ≥ 1` and the day to exist in the month.  The
result is the day ordinal (day 0 = 0001-01-01, a Monday). -/

/-- Gregorian leap year. -/
def isLeap (y : Nat) : Bool := y % 4 = 0 && (y % 100 ≠ 0 || y % 400 = 0)

/-- Days in a month (`m` is 1-12). -/
def daysInMonth (y m : Nat) : Nat :=
  if m = 2 then (if isLeap y then 29 else 28)
  else if m = 4 ∨ m = 6 ∨ m = 9 ∨ m = 11 then 30
  else 31

/-- Days in year `y` before the first of month `m`. -/
def daysBeforeMonth (y : Nat) : Nat → Nat
  | 0 => 0
  | 1 => 0
  | m + 1 => daysBeforeMonth y m + daysInMonth y m

/-- Day ordinal of the date `y-m-d` (0-based from 0001-01-01). -/
def dateOrdinal (y m d : Nat) : Nat :=
  365 * (y - 1) + (y - 1) / 4 - (y - 1) / 100 + (y - 1) / 400 +
    daysBeforeMonth y m + (d - 1)

/-- A `strptime` field of exactly `len` digit characters? -/
def exactDigits (len : Nat) (seg : List Char) : Option Nat :=
  if seg.length = len ∧ seg.all Char.isDigit then some (digitsToNat seg) else none

/-- A 1-2 digit field with value in `lo..hi` (the `%m`/`%d` patterns
exclude `0` and `00`). -/
def rangeField (lo hi : Nat) (seg : List Char) : Option Nat :=
  if (seg.length = 1 ∨ seg.length = 2) ∧ seg.all Char.isDigit then
    let v := digitsToNat seg
    if lo ≤ v ∧ v ≤ hi then some v else none
  else none

/-- `datetime.strptime(s, '%Y-%m-%d')` followed by taking `.date()`:
`some` of the day ordinal, `none` for a `ValueError`. -/
def parse_date (s : String) : Option Nat :=
  match splitOnChar '-' s.toList with
  | [a, b, c] =>
    match exactDigits 4 a, rangeField 1 12 b, rangeField 1 31 c with
    | some y, some m, some d =>
      if 1 ≤ y ∧ d ≤ daysInMonth y m then some (dateOrdinal y m d) else none
    | _, _, _ => none
  | _ => none

/-- `is_weekend` (app.py 302-310) on a date string: parse failure is
`False`. -/
def is_weekend (s : String) : Bool :=
  match parse_date s with
  | some d => is_weekend_ord d
  | none => false

/-! ## The POST branch of `manage_reminders` (app.py 606-683) -/

/-- A row of the `reminders` table (create_db.py; `id` is the
autoincrement key, all other columns are text, `NULL` = `none`). -/
structure ReminderRow where
  id : Nat
  date : String
  time : Option String
  title : String
  description : Option String
  location : Option String
deriving DecidableEq, Repr

/-- The POST form fields read at app.py 607-613 (`request.form.get`
returns `None` for a missing field). -/
structure PostForm where
  action : Option String
  reminder_id : Option String
  date : Option String
  time : Option String
  title : Option String
  description : Option String
  location : Option String

/-- A flash message: text and category (`'error'` or `'success'`). -/
def Flash := String × String
deriving instance DecidableEq for Flash

/-- The next autoincrement id for an INSERT. -/
def nextId (table : List ReminderRow) : Nat :=
  (table.map (·.id)).foldr max 0 + 1

/-- `strptime(time_val, '%H:%M')`: exactly two `':'`-separated digit
fields (the model of the time validation at app.py 637-643). -/
def parseHM (s : String) : Option (Nat × Nat) :=
  match splitOnChar ':' s.toList with
  | [a, b] =>
    match fieldVal 23 a, fieldVal 59 b with
    | some h, some m => some (h, m)
    | _, _ => none
  | _ => none

/-- The POST branch of `manage_reminders` (app.py 606-683): run the
validation chain, and only if every check passes touch the table
(UPDATE for `action == 'edit'` with a truthy `reminder_id`, INSERT
otherwise).  Returns the table after the request and the flash
message.  The database connection itself is assumed to succeed (its
failure path also writes nothing). -/
def manage_post (f : PostForm) (today : Nat) (table : List ReminderRow) :
    List ReminderRow × Flash :=
  let action := f.action.getD "add"
  match f.date with
  | none => (table, ("Date is required!", "error"))
  | some date =>
    if date = "" then (table, ("Date is required!", "error"))
    else
      match f.title with
      | none => (table, ("Title is required!", "error"))
      | some title0 =>
        if title0 = "" ∨ pyStripStr title0 = "" then (table, ("Title is required!", "error"))
        else if is_weekend date then
          (table, ("Cannot schedule reminders on weekends! Please choose a weekday.", "error"))
        else
          match parse_date date with
          | none => (table, ("Invalid date format!", "error"))
          | some d =>
            if d < today then (table, ("Cannot schedule reminders in the past!", "error"))
            else
              let timeRes : Option (Option String) :=
                match f.time with
                | none => some none
                | some ts =>
                  if ts = "" then some none
                  else
                    match parseHM ts with
                    | some (h, m) => some (some (timeString h m 0))
                    | none => none
              match timeRes with
              | none => (table, ("Invalid time format!", "error"))
              | some time_val =>
                let title := pyStripStr title0
                let description := f.description.bind
                  (fun s => if s = "" then none else some (pyStripStr s))
                let location := f.location.bind
                  (fun s => if s = "" then none else some (pyStripStr s))
                if action = "edit" ∧ f.reminder_id ≠ none ∧ f.reminder_id ≠ some "" then
                  let rid := (f.reminder_id.getD "").toNat?
                  let hit := table.any (fun r => rid = some r.id)
                  (table.map (fun r =>
                    if rid = some r.id then
                      { r with date := date, time := time_val, title := title
                               description := description, location := location }
                    else r),
                   if hit then ("Reminder updated successfully!", "success")
                   else ("Reminder not found!", "error"))
                else
                  (table ++ [{ id := nextId table, date := date, time := time_val,
                               title := title, description := description,
                               location := location }],
                   ("Reminder added successfully!", "success"))

/-! ## Theorems: screen paginator -/

/-- Any list of screens the paginator loop produces covers both input
queues exactly, in order, and respects the capacity. -/
theorem buildScreens_spec {α : Type} (maxPer : Nat) :
    ∀ (fuel : Nat) (today tomorrow : List α) (screens : List (Screen α)),
      buildScreens maxPer fuel today tomorrow = some screens →
      (screens.map Screen.today_reminders).flatten = today ∧
      (screens.map Screen.tomorrow_reminders).flatten = tomorrow ∧
      ∀ s ∈ screens, s.today_reminders.length + s.tomorrow_reminders.length ≤ maxPer := by
  intro fuel
  induction fuel with
  | zero =>
    intro today tomorrow screens h
    rw [buildScreens] at h
    split at h
    · rename_i hc
      simp only [Bool.and_eq_true, List.isEmpty_iff] at hc
      obtain ⟨h1, h2⟩ := hc
      obtain rfl : screens = [] := by simpa using h
      simp [h1, h2]
    · simp at h
  | succ fuel ih =>
    intro today tomorrow screens h
    rw [buildScreens] at h
    split at h
    · rename_i hc
      simp only [Bool.and_eq_true, List.isEmpty_iff] at hc
      obtain ⟨h1, h2⟩ := hc
      obtain rfl : screens = [] := by simpa using h
      simp [h1, h2]
    · simp only [Option.map_eq_some'] at h
      obtain ⟨rest, hrest, rfl⟩ := h
      obtain ⟨j1, j2, j3⟩ := ih _ _ _ hrest
      refine ⟨?_, ?_, ?_⟩
      · simp [j1]
      · simp [j2]
      · intro s hs
        rcases List.mem_cons.mp hs with rfl | hs
        · simp only [List.length_take]
          omega
        · exact j3 s hs

/-- With a positive capacity, fuel equal to the total number of items
is enough: each screen removes at least one item from the queues. -/
theorem buildScreens_total {α : Type} (maxPer : Nat) (hpos : 1 ≤ maxPer) :
    ∀ (fuel : Nat) (today tomorrow : List α),
      today.length + tomorrow.length ≤ fuel →
      (buildScreens maxPer fuel today tomorrow).isSome := by
  intro fuel
  induction fuel with
  | zero =>
    intro today tomorrow hlen
    have h1 : today = [] := by
      cases today <;> simp_all
    have h2 : tomorrow = [] := by
      cases tomorrow <;> simp_all
    rw [buildScreens]
    simp [h1, h2]
  | succ fuel ih =>
    intro today tomorrow hlen
    rw [buildScreens]
    split
    · simp
    · rename_i hc
      simp only [Bool.and_eq_true, List.isEmpty_iff, not_and_or] at hc
      have hrec := ih (today.drop maxPer)
        (tomorrow.drop (maxPer - (today.take maxPer).length)) ?_
      · simpa using hrec
      · simp only [List.length_drop, List.length_take]
        rcases hc with hc | hc
        · have : 0 < today.length := List.length_pos.mpr hc
          omega
        · have : 0 < tomorrow.length := List.length_pos.mpr hc
          omega

/-- With capacity `0` the loop makes no progress: no amount of fuel
finishes it unless both queues start empty. -/
theorem buildScreens_zero_capacity {α : Type} :
    ∀ (fuel : Nat) (today tomorrow : List α),
      ¬(today = [] ∧ tomorrow = []) →
      buildScreens 0 fuel today tomorrow = none := by
  intro fuel
  induction fuel with
  | zero =>
    intro today tomorrow hne
    rw [buildScreens]
    split
    · rename_i hc
      simp only [Bool.and_eq_true, List.isEmpty_iff] at hc
      exact absurd hc hne
    · rfl
  | succ fuel ih =>
    intro today tomorrow hne
    rw [buildScreens]
    split
    · rename_i hc
      simp only [Bool.and_eq_true, List.isEmpty_iff] at hc
      exact absurd hc hne
    · simp only [List.take_zero, List.length_nil, Nat.zero_sub, List.drop_zero]
      rw [ih today tomorrow hne]
      rfl

/-- With positive capacity `c + 1` and enough fuel, the source loop
computes exactly the screens described by the spec's drain recursion. -/
theorem buildScreens_eq_drainSpec {α : Type} (c : Nat) :
    ∀ (fuel : Nat) (today tomorrow : List α),
      today.length + tomorrow.length ≤ fuel →
      buildScreens (c + 1) fuel today tomorrow = some (drainSpec c today tomorrow) := by
  intro fuel
  induction fuel with
  | zero =>
    intro today tomorrow hlen
    have h1 : today = [] := by cases today <;> simp_all
    have h2 : tomorrow = [] := by cases tomorrow <;> simp_all
    rw [buildScreens, drainSpec]
    simp [h1, h2]
  | succ fuel ih =>
    intro today tomorrow hlen
    rw [buildScreens, drainSpec]
    split
    · rfl
    · rename_i hc
      simp only [Bool.and_eq_true, List.isEmpty_iff, not_and_or] at hc
      have hrec : buildScreens (c + 1) fuel (today.drop (c + 1))
          (tomorrow.drop (c + 1 - (today.take (c + 1)).length)) =
          some (drainSpec c (today.drop (c + 1))
            (tomorrow.drop (c + 1 - (today.take (c + 1)).length))) := by
        apply ih
        simp only [List.length_drop, List.length_take]
        rcases hc with hc | hc
        · have : 0 < today.length := List.length_pos.mpr hc
          omega
        · have : 0 < tomorrow.length := List.length_pos.mpr hc
          omega
      simp only [hrec, Option.map_some']

/-- C1: for every today-item list (reminders with loans merged in),
tomorrow-item list and capacity, whatever result `calculate_pagination_info`
returns satisfies the pagination invariant: the concatenation of the
screens' today-parts is the merged today-item list and that of the
tomorrow-parts is the tomorrow list (so every item appears in exactly
one screen, in the original relative order), no screen holds more than
`max_per_screen` items in total, `total_screens` is the number of
screens, and `needs_pagination` is false exactly when the `T + U` items
fit on one screen.  (For capacity 0 and a non-empty input, the source
loop never returns a result at all; see the termination theorem.) -/
theorem pagination_invariant_C1 {α : Type}
    (today_reminders tomorrow_reminders active_loans : List α) (max_per_screen : Nat)
    (r : PaginationInfo α)
    (h : calculate_pagination_info today_reminders tomorrow_reminders active_loans
          max_per_screen = some r) :
    (r.screens.map Screen.today_reminders).flatten = today_reminders ++ active_loans ∧
    (r.screens.map Screen.tomorrow_reminders).flatten = tomorrow_reminders ∧
    (∀ s ∈ r.screens,
      s.today_reminders.length + s.tomorrow_reminders.length ≤ max_per_screen) ∧
    r.total_screens = r.screens.length ∧
    (r.needs_pagination = false ↔
      (today_reminders ++ active_loans).length + tomorrow_reminders.length ≤ max_per_screen) := by
  rw [calculate_pagination_info] at h
  split at h
  · rename_i hfits
    obtain rfl : r = ⟨false, 1, [⟨today_reminders ++ active_loans, tomorrow_reminders⟩]⟩ :=
      (Option.some_inj.mp h).symm
    refine ⟨by simp, by simp, ?_, rfl, by simpa using hfits⟩
    intro s hs
    obtain rfl : s = ⟨today_reminders ++ active_loans, tomorrow_reminders⟩ := by simpa using hs
    simpa using hfits
  · rename_i hbig
    simp only [Option.map_eq_some'] at h
    obtain ⟨screens, hscr, rfl⟩ := h
    obtain ⟨j1, j2, j3⟩ := buildScreens_spec _ _ _ _ _ hscr
    exact ⟨j1, j2, j3, rfl, by simpa using hbig⟩

/-- C2: when the items do not fit on one screen, the paginator produces
exactly the screens of the spec's drain recursion (`drainSpec`): each
screen takes from the front of the remaining today-queue up to the
capacity and fills what is left from the front of the remaining
tomorrow-queue, until both queues are empty.  In particular, for 7
today-items and 3 tomorrow-items at capacity 7 it yields the two
screens (7 today, 0 tomorrow) and (0 today, 3 tomorrow), and for 5 + 5
at capacity 7 the screens (5 today, 2 tomorrow) and (0 today, 3
tomorrow). -/
theorem pagination_drain_C2 :
    (∀ {α : Type} (c : Nat) (today tomorrow : List α),
      c + 1 < today.length + tomorrow.length →
      calculate_pagination_info today tomorrow [] (c + 1) =
        some ⟨true, (drainSpec c today tomorrow).length, drainSpec c today tomorrow⟩) ∧
    calculate_pagination_info ([0, 1, 2, 3, 4, 5, 6] : List Nat) [100, 101, 102] [] 7 =
      some ⟨true, 2, [⟨[0, 1, 2, 3, 4, 5, 6], []⟩, ⟨[], [100, 101, 102]⟩]⟩ ∧
    calculate_pagination_info ([0, 1, 2, 3, 4] : List Nat) [100, 101, 102, 103, 104] [] 7 =
      some ⟨true, 2, [⟨[0, 1, 2, 3, 4], [100, 101]⟩, ⟨[], [102, 103, 104]⟩]⟩ := by
  refine ⟨?_, ?_, ?_⟩
  · intro α c today tomorrow hbig
    rw [calculate_pagination_info]
    have hlen : (today ++ []).length = today.length := by simp
    rw [if_neg (by simpa [hlen] using Nat.not_le_of_lt hbig)]
    simp only [List.append_nil]
    rw [buildScreens_eq_drainSpec c _ today tomorrow (by omega)]
    rfl
  · decide
  · decide

/-- C2 witness at concrete inputs. -/
theorem pagination_drain_C2_witness :
    calculate_pagination_info ([10, 20] : List Nat) [30] [] 2 =
      some ⟨true, 2, [⟨[10, 20], []⟩, ⟨[], [30]⟩]⟩ := by
  have h := pagination_drain_C2.1 (α := Nat) 1 [10, 20] [30] (by simp)
  rw [h]
  rw [drainSpec]
  norm_num
  rw [drainSpec]
  norm_num
  rw [drainSpec]
  norm_num

/-- C10: with a positive capacity the paginator loop terminates (fuel
equal to the item count is enough, because every screen removes at
least one item), and positivity is required: with capacity 0 and a
non-empty input no amount of fuel finishes the loop. -/
theorem pagination_termination_C10 :
    (∀ {α : Type} (today tomorrow loans : List α) (c : Nat), 1 ≤ c →
      (calculate_pagination_info today tomorrow loans c).isSome) ∧
    (∀ {α : Type} (fuel : Nat) (today tomorrow : List α),
      ¬(today = [] ∧ tomorrow = []) →
      buildScreens 0 fuel today tomorrow = none) := by
  constructor
  · intro α today tomorrow loans c hc
    rw [calculate_pagination_info]
    split
    · rfl
    · simpa using buildScreens_total c hc _ (today ++ loans) tomorrow le_rfl
  · exact fun fuel today tomorrow h => buildScreens_zero_capacity fuel today tomorrow h

/-- C10 witness at concrete inputs. -/
theorem pagination_termination_C10_witness :
    (calculate_pagination_info ([1, 2, 3] : List Nat) [4] [5] 1).isSome ∧
    buildScreens 0 5 ([1] : List Nat) [] = none :=
  ⟨pagination_termination_C10.1 [1, 2, 3] [4] [5] 1 (by decide),
   pagination_termination_C10.2 5 [1] [] (by simp)⟩

/-- C1 witness at concrete inputs (2 today-reminders, 1 tomorrow-item,
1 loan, capacity 3). -/
theorem pagination_invariant_C1_witness :
    ((PaginationInfo.mk true 2 [Screen.mk ([1, 2, 4] : List Nat) [], Screen.mk [] [3]]).screens.map
        Screen.today_reminders).flatten = [1, 2] ++ [4] ∧
    ((PaginationInfo.mk true 2 [Screen.mk ([1, 2, 4] : List Nat) [], Screen.mk [] [3]]).screens.map
        Screen.tomorrow_reminders).flatten = [3] ∧
    (Screen.mk ([1, 2, 4] : List Nat) []).today_reminders.length +
      (Screen.mk ([1, 2, 4] : List Nat) []).tomorrow_reminders.length ≤ 3 ∧
    (PaginationInfo.mk true 2 [Screen.mk ([1, 2, 4] : List Nat) [], Screen.mk [] [3]]).total_screens =
      (PaginationInfo.mk true 2 [Screen.mk ([1, 2, 4] : List Nat) [], Screen.mk [] [3]]).screens.length ∧
    ((PaginationInfo.mk true 2 [Screen.mk ([1, 2, 4] : List Nat) [], Screen.mk [] [3]]).needs_pagination
        = false ↔ (([1, 2] : List Nat) ++ [4]).length + [3].length ≤ 3) := by
  have h := pagination_invariant_C1 [1, 2] [3] [4] 3
    (PaginationInfo.mk true 2 [Screen.mk ([1, 2, 4] : List Nat) [], Screen.mk [] [3]]) (by decide)
  exact ⟨h.1, h.2.1, h.2.2.1 _ (by decide), h.2.2.2.1, h.2.2.2.2⟩

/-! ## Theorems: working-day calculator -/

/-- C3: on Monday-Thursday the next working day is tomorrow with label
`"Tomorrow"`; on Friday it is three days later with label `"Monday"`
(Saturday/Sunday are outside the precondition). -/
theorem working_day_C3 (d : Nat) :
    (weekday d ≤ 3 →
      get_next_working_day d = d + 1 ∧ get_next_working_day_name d = "Tomorrow") ∧
    (weekday d = 4 →
      get_next_working_day d = d + 3 ∧ get_next_working_day_name d = "Monday") := by
  constructor
  · intro h
    have h4 : ¬ weekday d = 4 := by omega
    simp [get_next_working_day, get_next_working_day_name, h4]
  · intro h
    simp [get_next_working_day, get_next_working_day_name, h]

/-- C3 witness: day 2 is a Wednesday, day 4 a Friday. -/
theorem working_day_C3_witness :
    (get_next_working_day 2 = 3 ∧ get_next_working_day_name 2 = "Tomorrow") ∧
    (get_next_working_day 4 = 7 ∧ get_next_working_day_name 4 = "Monday") :=
  ⟨(working_day_C3 2).1 (by decide), (working_day_C3 4).2 (by decide)⟩

/-! ## Theorems: loan-string parser -/

/-- C4 counterexample: the claim says the left split part is the
student WITHOUT trimming, but the source strips it
(`parts[0].strip()`, app.py 228).  On `"a  - b"` (two spaces before
the separator) the untrimmed left part is `"a "` while the source
returns `"a"`. -/
theorem loan_parser_C4_counterexample :
    parse_loan_string "a  - b" = ⟨"a", "b", ""⟩ ∧
    parseLoanClaimed "a  - b" = ⟨"a ", "b", ""⟩ ∧
    parse_loan_string "a  - b" ≠ parseLoanClaimed "a  - b" := by
  refine ⟨by decide, by decide, by decide⟩

/-- C4 amended: as the claim states, except that the left split part is
also trimmed before becoming the student.  The source parser agrees
with the amended spec-worded parser on every input, and the claim's two
concrete examples hold. -/
theorem loan_parser_C4 :
    (∀ s : String, parse_loan_string s = parseLoanAmended s) ∧
    parse_loan_string "T Student - Card Reader (0d)" =
      ⟨"T Student", "Card Reader", "0d"⟩ ∧
    parse_loan_string "" = ⟨"Unknown", "Unknown", ""⟩ := by
  refine ⟨fun s => rfl, by decide, by decide⟩

/-! ## Theorems: time parsing and formatting -/

/-- A successful `strptime` field is within its bound. -/
theorem fieldVal_le {maxv : Nat} {seg : List Char} {v : Nat}
    (h : fieldVal maxv seg = some v) : v ≤ maxv := by
  rw [fieldVal] at h
  split at h
  · dsimp only at h
    split at h
    · rename_i hle
      cases h
      exact hle
    · cases h
  · cases h

/-- Whatever `parse_time_safely` accepts is a valid time of day. -/
theorem parse_time_safely_bounds {t : Option String} {h m sec : Nat}
    (hp : parse_time_safely t = some (h, m, sec)) :
    h ≤ 23 ∧ m ≤ 59 ∧ sec ≤ 59 := by
  cases t with
  | none => cases hp
  | some s =>
    rw [parse_time_safely] at hp
    split at hp
    · cases hp
    · split at hp
      · split at hp
        · rename_i h1 h2 h3
          cases hp
          exact ⟨fieldVal_le h1, fieldVal_le h2, fieldVal_le h3⟩
        · cases hp
      · split at hp
        · rename_i h1 h2
          cases hp
          exact ⟨fieldVal_le h1, fieldVal_le h2, by omega⟩
        · cases hp
      · cases hp

/-- C7: `format_time_for_display` returns `"All Day"` on a null or
unparseable time and the 12-hour AM/PM rendering on a parsed one
(`parse_time_safely` tries `HH:MM:SS` then `HH:MM`), with the claim's
four concrete examples. -/
theorem time_format_C7 :
    format_time_for_display none = "All Day" ∧
    format_time_for_display (some "14:00:00") = "02:00 PM" ∧
    format_time_for_display (some "14:00") = "02:00 PM" ∧
    format_time_for_display (some "not-a-time") = "All Day" ∧
    (∀ s : String, parse_time_safely (some s) = none →
      format_time_for_display (some s) = "All Day") ∧
    (∀ (s : String) (h m sec : Nat), parse_time_safely (some s) = some (h, m, sec) →
      format_time_for_display (some s) = render12 h m ∧ h ≤ 23 ∧ m ≤ 59 ∧ sec ≤ 59) := by
  refine ⟨rfl, by decide, by decide, by decide, ?_, ?_⟩
  · intro s hs
    simp [format_time_for_display, hs]
  · intro s h m sec hp
    obtain ⟨h1, h2, h3⟩ := parse_time_safely_bounds hp
    exact ⟨by simp [format_time_for_display, hp], h1, h2, h3⟩

/-- C7 witness: an unparseable and a parseable concrete time. -/
theorem time_format_C7_witness :
    format_time_for_display (some "99:99") = "All Day" ∧
    format_time_for_display (some "7:5") = render12 7 5 :=
  ⟨time_format_C7.2.2.2.2.1 "99:99" (by decide),
   (time_format_C7.2.2.2.2.2 "7:5" 7 5 0 (by decide)).1⟩

/-! ## Theorems: decimal rendering is injective (for loan ids) -/

/-- Code point of a digit character. -/
theorem digitChar_toNat : ∀ n < 10, (digitChar n).toNat = 48 + n := by decide

/-- The decimal rendering evaluates back to the number. -/
theorem natCharsAux_val : ∀ (fuel n : Nat), n < fuel →
    digitsToNat (natCharsAux fuel n) = n := by
  intro fuel
  induction fuel with
  | zero => intro n h; omega
  | succ fuel ih =>
    intro n h
    rw [natCharsAux]
    split
    · rename_i h10
      simp only [digitsToNat, List.foldl_cons, List.foldl_nil, Nat.zero_mul, Nat.zero_add]
      rw [digitChar_toNat n h10]
      omega
    · rename_i h10
      push_neg at h10
      have hdivlt : n / 10 < n := Nat.div_lt_self (by omega) (by omega)
      have hval := ih (n / 10) (by omega)
      simp only [digitsToNat, List.foldl_append, List.foldl_cons, List.foldl_nil] at *
      rw [hval, digitChar_toNat (n % 10) (by omega)]
      have := Nat.div_add_mod n 10
      omega

/-- `digitsToNat (natChars n) = n`. -/
theorem natChars_val (n : Nat) : digitsToNat (natChars n) = n :=
  natCharsAux_val (n + 1) n (by omega)

/-- The decimal rendering is injective. -/
theorem natChars_inj {a b : Nat} (h : natChars a = natChars b) : a = b := by
  have ha := natChars_val a
  rw [h, natChars_val] at ha
  omega

/-- Loan ids `"loan_<k>"` are injective in `k`. -/
theorem loanId_inj {a b : Nat} (h : ("loan_" ++ pyStr a : String) = "loan_" ++ pyStr b) :
    a = b := by
  have hd := congrArg String.data h
  simp only [String.data_append] at hd
  exact natChars_inj (List.append_cancel_left hd)

/-! ## Theorems: loan display formatter -/

/-- The formatter loop preserves length. -/
theorem formatLoansAux_length (t : String) :
    ∀ (loans : List String) (k : Nat), (formatLoansAux t k loans).length = loans.length := by
  intro loans
  induction loans with
  | nil => intro k; rfl
  | cons l ls ih => intro k; simp [formatLoansAux, ih]

/-- The `i`-th output of the formatter loop started at counter `k` is
the item built from the `i`-th input at id index `k + i`. -/
theorem formatLoansAux_get (t : String) :
    ∀ (loans : List String) (k i : Nat) (hi : i < (formatLoansAux t k loans).length)
      (hl : i < loans.length),
      (formatLoansAux t k loans).get ⟨i, hi⟩ = mkLoanItem t (k + i) (loans.get ⟨i, hl⟩) := by
  intro loans
  induction loans with
  | nil => intro k i hi hl; simp at hl
  | cons l ls ih =>
    intro k i hi hl
    cases i with
    | zero => rfl
    | succ i =>
      have hi' : i < (formatLoansAux t (k + 1) ls).length := by
        simpa [formatLoansAux] using hi
      have hl' : i < ls.length := by simpa using hl
      have := ih (k + 1) i hi' hl'
      simpa [formatLoansAux, Nat.add_assoc, Nat.add_comm 1 i] using this

/-- C8: `format_loans_for_display` keeps length and order; every output
item has `is_loan = true`, `time_display = "LOAN"`,
`date_display = "Today"` and the verbatim loan string as title, and the
ids are pairwise distinct within the batch. -/
theorem loans_display_C8 (loans : List String) (todayStr : String) :
    (format_loans_for_display loans todayStr).length = loans.length ∧
    (∀ (i : Nat) (hi : i < (format_loans_for_display loans todayStr).length)
        (hl : i < loans.length),
      ((format_loans_for_display loans todayStr).get ⟨i, hi⟩).is_loan = true ∧
      ((format_loans_for_display loans todayStr).get ⟨i, hi⟩).time_display = "LOAN" ∧
      ((format_loans_for_display loans todayStr).get ⟨i, hi⟩).date_display = "Today" ∧
      ((format_loans_for_display loans todayStr).get ⟨i, hi⟩).title = loans.get ⟨i, hl⟩) ∧
    (∀ (i j : Nat) (hi : i < (format_loans_for_display loans todayStr).length)
        (hj : j < (format_loans_for_display loans todayStr).length), i ≠ j →
      ((format_loans_for_display loans todayStr).get ⟨i, hi⟩).id ≠
        ((format_loans_for_display loans todayStr).get ⟨j, hj⟩).id) := by
  refine ⟨formatLoansAux_length todayStr loans 0, ?_, ?_⟩
  · intro i hi hl
    unfold format_loans_for_display
    rw [formatLoansAux_get todayStr loans 0 i hi hl]
    exact ⟨rfl, rfl, rfl, rfl⟩
  · intro i j hi hj hne
    have hlen : (format_loans_for_display loans todayStr).length = loans.length :=
      formatLoansAux_length todayStr loans 0
    have hli : i < loans.length := by omega
    have hlj : j < loans.length := by omega
    unfold format_loans_for_display
    rw [formatLoansAux_get todayStr loans 0 i hi hli,
      formatLoansAux_get todayStr loans 0 j hj hlj]
    intro hid
    exact hne (by simpa using loanId_inj (by simpa [mkLoanItem] using hid))

/-- C8 witness at a concrete two-loan batch. -/
theorem loans_display_C8_witness :
    (format_loans_for_display ["x", "y"] "D").length = 2 ∧
    ((format_loans_for_display ["x", "y"] "D").get ⟨0, by decide⟩).title = "x" ∧
    ((format_loans_for_display ["x", "y"] "D").get ⟨0, by decide⟩).id ≠
      ((format_loans_for_display ["x", "y"] "D").get ⟨1, by decide⟩).id :=
  ⟨(loans_display_C8 ["x", "y"] "D").1,
   ((loans_display_C8 ["x", "y"] "D").2.1 0 (by decide) (by decide)).2.2.2,
   (loans_display_C8 ["x", "y"] "D").2.2 0 1 (by decide) (by decide) (by decide)⟩

/-! ## Theorems: the end-of-day sentinel

Python compares `'HH:MM:SS'` strings lexicographically by code point;
the lemmas below show every valid time string is `≤ '23:59:59'`, and
strictly below it except for `23:59:59` itself. -/

/-- Strict lexicographic order survives appending suffixes when the
compared prefixes have equal length. -/
theorem lex_append {a b : List Char} (h : List.Lex (· < ·) a b) :
    ∀ (x y : List Char), a.length = b.length →
      List.Lex (· < ·) (a ++ x) (b ++ y) := by
  induction h with
  | nil => intro x y hlen; simp at hlen
  | cons h ih => intro x y hlen; exact List.Lex.cons (ih x y (by simpa using hlen))
  | rel h => intro x y hlen; exact List.Lex.rel h

/-- `≤` on char lists is preserved by consing the same head. -/
theorem cons_le_cons {u v : List Char} (c : Char) (h : u ≤ v) : c :: u ≤ c :: v := by
  rcases lt_or_eq_of_le h with hlt | heq
  · exact le_of_lt (List.Lex.cons hlt)
  · subst heq; exact le_rfl

/-- `≤` on char lists is preserved by appending on the left. -/
theorem append_le_append_left {x y : List Char} (hxy : x ≤ y) :
    ∀ (a : List Char), a ++ x ≤ a ++ y := by
  intro a
  induction a with
  | nil => simpa using hxy
  | cons c cs ih => exact cons_le_cons c ih

/-- `≤` on char lists survives appending, for equal-length prefixes. -/
theorem le_append {a b : List Char} (hab : a ≤ b) (hlen : a.length = b.length)
    {x y : List Char} (hxy : x ≤ y) : a ++ x ≤ b ++ y := by
  rcases lt_or_eq_of_le hab with hlt | heq
  · exact le_of_lt (lex_append hlt x y hlen)
  · subst heq
    exact append_le_append_left hxy a

/-- Two-digit minute/second renderings are `≤ "59"` with length 2. -/
theorem pad2_le_59 : ∀ n < 60, pad2 n ≤ ['5', '9'] ∧ (pad2 n).length = 2 := by decide

/-- Two-digit hour renderings are `≤ "23"` with length 2. -/
theorem pad2_le_23 : ∀ n < 24, pad2 n ≤ ['2', '3'] ∧ (pad2 n).length = 2 := by decide

/-- Every valid time-of-day string sorts at or before the null-time
sentinel `"23:59:59"`. -/
theorem timeString_le_sentinel (h m s : Nat) (hh : h < 24) (hm : m < 60) (hs : s < 60) :
    timeString h m s ≤ "23:59:59" := by
  rw [String.le_iff_toList_le]
  have e1 : (timeString h m s).toList = pad2 h ++ ':' :: (pad2 m ++ ':' :: pad2 s) := by
    simp [timeString, List.asString, String.toList]
  have e2 : ("23:59:59" : String).toList =
      ['2', '3'] ++ ':' :: (['5', '9'] ++ ':' :: ['5', '9']) := by decide
  rw [e1, e2]
  exact le_append (pad2_le_23 h hh).1 (pad2_le_23 h hh).2
    (cons_le_cons ':' (le_append (pad2_le_59 m hm).1 (pad2_le_59 m hm).2
      (cons_le_cons ':' (pad2_le_59 s hs).1)))

/-- Minute/second renderings round-trip through the `strptime` field
and contain no `':'`. -/
theorem pad2_field59 : ∀ n < 60, fieldVal 59 (pad2 n) = some n ∧ ':' ∉ pad2 n := by decide

/-- Hour renderings round-trip through the `strptime` field and
contain no `':'`. -/
theorem pad2_field23 : ∀ n < 24, fieldVal 23 (pad2 n) = some n ∧ ':' ∉ pad2 n := by decide

/-- Splitting a list without the separator yields one segment. -/
theorem splitOnChar_not_mem {c : Char} :
    ∀ {a : List Char}, c ∉ a → splitOnChar c a = [a] := by
  intro a
  induction a with
  | nil => intro _; rfl
  | cons x xs ih =>
    intro hmem
    have h1 : ¬ x = c := fun he => hmem (by simp [he])
    have h2 : c ∉ xs := fun he => hmem (by simp [he])
    rw [splitOnChar, if_neg h1, ih h2]

/-- Splitting peels off a separator-free prefix as one segment. -/
theorem splitOnChar_append {c : Char} :
    ∀ {a : List Char}, c ∉ a → ∀ rest : List Char,
      splitOnChar c (a ++ c :: rest) = a :: splitOnChar c rest := by
  intro a
  induction a with
  | nil =>
    intro _ rest
    simp only [List.nil_append]
    rw [splitOnChar, if_pos rfl]
  | cons x xs ih =>
    intro hmem rest
    have h1 : ¬ x = c := fun he => hmem (by simp [he])
    have h2 : c ∉ xs := fun he => hmem (by simp [he])
    simp only [List.cons_append]
    rw [splitOnChar, if_neg h1, ih h2 rest]

/-- `strftime('%H:%M:%S')` output parses back to the same time. -/
theorem parse_timeString (h m s : Nat) (hh : h < 24) (hm : m < 60) (hs : s < 60) :
    parse_time_safely (some (timeString h m s)) = some (h, m, s) := by
  obtain ⟨hf, hnot⟩ := pad2_field23 h hh
  obtain ⟨hfm, hnotm⟩ := pad2_field59 m hm
  obtain ⟨hfs, hnots⟩ := pad2_field59 s hs
  have hne : timeString h m s ≠ "" := by
    intro heq
    have := congrArg (fun t => t.toList.length) heq
    simp only [String.toList_empty, List.length_nil] at this
    have e1 : (timeString h m s).toList = pad2 h ++ ':' :: (pad2 m ++ ':' :: pad2 s) := by
      simp [timeString, List.asString, String.toList]
    rw [e1] at this
    simp [List.length_append, (pad2_le_23 h hh).2] at this
  rw [parse_time_safely, if_neg hne]
  have e1 : (timeString h m s).toList = pad2 h ++ ':' :: (pad2 m ++ ':' :: pad2 s) := by
    simp [timeString, List.asString, String.toList]
  rw [e1, splitOnChar_append hnot, splitOnChar_append hnotm, splitOnChar_not_mem hnots]
  simp [hf, hfm, hfs]

/-- Every valid time other than `23:59:59` itself sorts strictly
before the sentinel. -/
theorem timeString_lt_sentinel (h m s : Nat) (hh : h < 24) (hm : m < 60) (hs : s < 60)
    (hne : ¬(h = 23 ∧ m = 59 ∧ s = 59)) : timeString h m s < "23:59:59" := by
  refine lt_of_le_of_ne (timeString_le_sentinel h m s hh hm hs) ?_
  intro heq
  have hp := parse_timeString h m s hh hm hs
  rw [heq] at hp
  have hq : parse_time_safely (some "23:59:59") = some (23, 59, 59) := by decide
  rw [hq] at hp
  cases hp
  exact hne ⟨rfl, rfl, rfl⟩

/-! ## Theorems: reminder organizer -/

/-- The sort-key comparison is total. -/
theorem keyLe_total (a b : Nat × String) : keyLe a b || keyLe b a := by
  simp only [keyLe, Bool.or_eq_true, decide_eq_true_eq]
  rcases Nat.lt_trichotomy a.1 b.1 with h | h | h
  · exact Or.inl (Or.inl h)
  · rcases le_total a.2 b.2 with h2 | h2
    · exact Or.inl (Or.inr ⟨h, h2⟩)
    · exact Or.inr (Or.inr ⟨h.symm, h2⟩)
  · exact Or.inr (Or.inl h)

/-- The sort-key comparison is transitive. -/
theorem keyLe_trans (a b c : Nat × String) :
    keyLe a b → keyLe b c → keyLe a c := by
  simp only [keyLe, decide_eq_true_eq]
  rintro (h1 | ⟨h1, h1'⟩) (h2 | ⟨h2, h2'⟩)
  · exact Or.inl (h1.trans h2)
  · exact Or.inl (h2 ▸ h1)
  · exact Or.inl (h1 ▸ h2)
  · exact Or.inr ⟨h1.trans h2, h1'.trans h2'⟩

/-- C5: `get_all_reminders_organized` puts every row dated today or
later in the current bucket and every strictly earlier row in the old
bucket (a row dated exactly today is current); the current bucket is
sorted ascending and the old bucket descending by the key
(date, time-or-`"23:59:59"`), and the sentinel sorts after every real
time of day (strictly after every time other than `23:59:59` itself). -/
theorem organize_C5 (rows : List Reminder) (today : Nat) :
    (∀ r ∈ rows, today ≤ r.date →
      decorate today r ∈ (get_all_reminders_organized rows today).1) ∧
    (∀ r ∈ rows, r.date < today →
      decorate today r ∈ (get_all_reminders_organized rows today).2) ∧
    (∀ d ∈ (get_all_reminders_organized rows today).1, today ≤ d.base.date) ∧
    (∀ d ∈ (get_all_reminders_organized rows today).2, d.base.date < today) ∧
    (get_all_reminders_organized rows today).1.Pairwise
      (fun a b => keyLe (get_sort_key a.base) (get_sort_key b.base) = true) ∧
    (get_all_reminders_organized rows today).2.Pairwise
      (fun a b => keyLe (get_sort_key b.base) (get_sort_key a.base) = true) ∧
    (∀ (h m s : Nat), h < 24 → m < 60 → s < 60 →
      timeString h m s ≤ "23:59:59" ∧
      (¬(h = 23 ∧ m = 59 ∧ s = 59) → timeString h m s < "23:59:59")) := by
  refine ⟨?_, ?_, ?_, ?_, ?_, ?_, ?_⟩
  · intro r hr hdate
    rw [get_all_reminders_organized]
    simp only [List.mem_mergeSort, List.mem_filter, List.mem_map, decorate]
    exact ⟨⟨r, hr, rfl⟩, by simpa [decorate] using hdate⟩
  · intro r hr hdate
    rw [get_all_reminders_organized]
    simp only [List.mem_mergeSort, List.mem_filter, List.mem_map, decorate]
    exact ⟨⟨r, hr, rfl⟩, by simp [decorate]; omega⟩
  · intro d hd
    rw [get_all_reminders_organized] at hd
    simp only [List.mem_mergeSort, List.mem_filter] at hd
    simpa using hd.2
  · intro d hd
    rw [get_all_reminders_organized] at hd
    simp only [List.mem_mergeSort, List.mem_filter] at hd
    have := hd.2
    simp at this
    omega
  · rw [get_all_reminders_organized]
    exact List.sorted_mergeSort
      (fun a b c => keyLe_trans (get_sort_key a.base) (get_sort_key b.base) (get_sort_key c.base))
      (fun a b => keyLe_total (get_sort_key a.base) (get_sort_key b.base)) _
  · rw [get_all_reminders_organized]
    exact List.sorted_mergeSort
      (fun a b c hab hbc =>
        keyLe_trans (get_sort_key c.base) (get_sort_key b.base) (get_sort_key a.base) hbc hab)
      (fun a b => keyLe_total (get_sort_key b.base) (get_sort_key a.base)) _
  · intro h m s hh hm hs
    exact ⟨timeString_le_sentinel h m s hh hm hs,
      fun hne => timeString_lt_sentinel h m s hh hm hs hne⟩

/-- C5 witness: two concrete rows, one dated today, one dated earlier,
and a concrete time against the sentinel. -/
theorem organize_C5_witness :
    decorate 5 ⟨1, 5, none, "a"⟩ ∈
      (get_all_reminders_organized [⟨1, 5, none, "a"⟩, ⟨2, 3, none, "b"⟩] 5).1 ∧
    decorate 5 ⟨2, 3, none, "b"⟩ ∈
      (get_all_reminders_organized [⟨1, 5, none, "a"⟩, ⟨2, 3, none, "b"⟩] 5).2 ∧
    timeString 10 5 3 ≤ "23:59:59" ∧ timeString 10 5 3 < "23:59:59" := by
  have h := organize_C5 [⟨1, 5, none, "a"⟩, ⟨2, 3, none, "b"⟩] 5
  exact ⟨h.1 _ (by simp) (by decide), h.2.1 _ (by simp) (by decide),
    (h.2.2.2.2.2.2 10 5 3 (by omega) (by omega) (by omega)).1,
    (h.2.2.2.2.2.2 10 5 3 (by omega) (by omega) (by omega)).2 (by omega)⟩

/-- The example row of the C6 counterexample sits in the current
bucket: day 14 is a Monday two weeks past day 0, day 4 is a Friday. -/
theorem mem_organize_example :
    decorate 4 ⟨0, 14, none, "x"⟩ ∈
      (get_all_reminders_organized [⟨0, 14, none, "x"⟩] 4).1 := by
  rw [get_all_reminders_organized]
  simp only [List.mem_mergeSort, List.mem_filter, List.mem_map]
  exact ⟨⟨⟨0, 14, none, "x"⟩, by simp, rfl⟩, by simp [decorate]⟩

/-- C6 counterexample: on Friday day 4 the organizer flags a row dated
Monday day 14 — a Monday two weeks ahead, not the coming Monday
(`get_next_working_day 4 = 7`).  The claim says the flag is true only
for rows dated the coming Monday, but the source sets it for rows
dated ANY Monday (`is_monday(date) and is_today_friday()`,
app.py 438). -/
theorem organize_flag_C6_counterexample :
    (decorate 4 ⟨0, 14, none, "x"⟩).is_monday_next_working_day = true ∧
    decorate 4 ⟨0, 14, none, "x"⟩ ∈
      (get_all_reminders_organized [⟨0, 14, none, "x"⟩] 4).1 ∧
    weekday 4 = 4 ∧ weekday 14 = 0 ∧
    (14 : Nat) ≠ get_next_working_day 4 :=
  ⟨by decide, mem_organize_example, by decide, by decide, by decide⟩

/-- C6 amended: the flag attached by the organizer is true exactly when
the row's date falls on a Monday — any Monday, not only the coming
one — and the evaluation day is a Friday. -/
theorem organize_flag_C6 (rows : List Reminder) (today : Nat) (d : DisplayReminder)
    (hd : d ∈ (get_all_reminders_organized rows today).1 ∨
          d ∈ (get_all_reminders_organized rows today).2) :
    d.is_monday_next_working_day = true ↔
      weekday d.base.date = 0 ∧ weekday today = 4 := by
  have hmem : ∃ r ∈ rows, d = decorate today r := by
    rcases hd with hd | hd <;>
    · rw [get_all_reminders_organized] at hd
      simp only [List.mem_mergeSort, List.mem_filter, List.mem_map] at hd
      obtain ⟨⟨r, hr, hrd⟩, -⟩ := hd
      exact ⟨r, hr, hrd.symm⟩
  obtain ⟨r, -, rfl⟩ := hmem
  simp [decorate, is_monday_ord, is_today_friday, Bool.and_eq_true]

/-- C6 witness for the amended statement, at the concrete example row. -/
theorem organize_flag_C6_witness :
    (decorate 4 ⟨0, 14, none, "x"⟩).is_monday_next_working_day = true ↔
      weekday (decorate 4 ⟨0, 14, none, "x"⟩).base.date = 0 ∧ weekday 4 = 4 :=
  organize_flag_C6 [⟨0, 14, none, "x"⟩] 4 _ (Or.inl mem_organize_example)

/-! ## Theorems: the create/edit request handler -/

/-- If every validation check of the POST handler passed, none of the
claim's validation-failure conditions can hold. -/
theorem no_validation_failure {f : PostForm} {today : Nat} {date title : String} {d : Nat}
    (hfd : f.date = some date) (hde : date ≠ "")
    (hft : f.title = some title) (htb : ¬(title = "" ∨ pyStripStr title = ""))
    (hwk : ¬ is_weekend date = true)
    (hpd : parse_date date = some d) (hpast : ¬ d < today)
    (htime : ∀ ts, f.time = some ts → ts ≠ "" → parseHM ts ≠ none)
    (hfail :
      f.date = none ∨ f.date = some "" ∨
      f.title = none ∨ (∃ t, f.title = some t ∧ pyStripStr t = "") ∨
      (∃ ds, f.date = some ds ∧ is_weekend ds = true) ∨
      (∃ ds dd, f.date = some ds ∧ parse_date ds = some dd ∧ dd < today) ∨
      (∃ ts, f.time = some ts ∧ ts ≠ "" ∧ parseHM ts = none)) : False := by
  rcases hfail with h | h | h | ⟨t, ht, hts⟩ | ⟨ds, hds, hw⟩ | ⟨ds, dd, hds, hp, hlt⟩ |
    ⟨ts, ht1, ht2, ht3⟩
  · rw [hfd] at h; cases h
  · rw [hfd] at h
    cases h
    exact hde rfl
  · rw [hft] at h; cases h
  · rw [hft] at ht
    cases ht
    exact htb (Or.inr hts)
  · rw [hfd] at hds
    cases hds
    exact hwk hw
  · rw [hfd] at hds
    cases hds
    rw [hpd] at hp
    cases hp
    exact hpast hlt
  · exact htime ts ht1 ht2 ht3

/-- C9: a create/edit POST that fails validation — missing date,
missing or blank title, weekend date, date strictly before today, or
unparseable time — leaves the reminders table exactly as it was and
produces an error-category flash message. -/
theorem manage_validation_C9 (f : PostForm) (today : Nat) (table : List ReminderRow)
    (hfail :
      f.date = none ∨ f.date = some "" ∨
      f.title = none ∨ (∃ t, f.title = some t ∧ pyStripStr t = "") ∨
      (∃ ds, f.date = some ds ∧ is_weekend ds = true) ∨
      (∃ ds d, f.date = some ds ∧ parse_date ds = some d ∧ d < today) ∨
      (∃ ts, f.time = some ts ∧ ts ≠ "" ∧ parseHM ts = none)) :
    (manage_post f today table).1 = table ∧
    (manage_post f today table).2.2 = "error" := by
  unfold manage_post
  rcases hfd : f.date with _ | date
  · simp only [hfd]
    exact ⟨True.intro, True.intro⟩
  · simp only [hfd]
    by_cases hde : date = ""
    · simp only [if_pos hde]
      exact ⟨True.intro, True.intro⟩
    · simp only [if_neg hde]
      rcases hft : f.title with _ | title
      · simp only [hft]
        exact ⟨True.intro, True.intro⟩
      · simp only [hft]
        by_cases htb : title = "" ∨ pyStripStr title = ""
        · simp only [if_pos htb]
          exact ⟨True.intro, True.intro⟩
        · simp only [if_neg htb]
          by_cases hwk : is_weekend date = true
          · simp only [hwk, if_true]
            exact ⟨True.intro, True.intro⟩
          · simp only [if_neg hwk]
            rcases hpd : parse_date date with _ | d
            · simp only [hpd]
              exact ⟨True.intro, True.intro⟩
            · simp only [hpd]
              by_cases hpast : d < today
              · simp only [if_pos hpast]
                exact ⟨True.intro, True.intro⟩
              · simp only [if_neg hpast]
                rcases hti : f.time with _ | ts
                · simp only [hti]
                  exact absurd hfail (by
                    intro hf
                    exact no_validation_failure hfd hde hft htb hwk hpd hpast
                      (fun ts' hts' _ _ => by rw [hti] at hts'; cases hts') hf)
                · simp only [hti]
                  by_cases hts : ts = ""
                  · simp only [if_pos hts]
                    exact absurd hfail (by
                      intro hf
                      exact no_validation_failure hfd hde hft htb hwk hpd hpast
                        (fun ts' hts' hne _ => by
                          rw [hti] at hts'
                          cases hts'
                          exact hne hts) hf)
                  · simp only [if_neg hts]
                    rcases hhm : parseHM ts with _ | hm
                    · simp only [hhm]
                      exact ⟨True.intro, True.intro⟩
                    · simp only [hhm]
                      exact absurd hfail (by
                        intro hf
                        exact no_validation_failure hfd hde hft htb hwk hpd hpast
                          (fun ts' hts' _ hnone => by
                            rw [hti] at hts'
                            cases hts'
                            rw [hhm] at hnone
                            cases hnone) hf)

/-- C9 witness: a request with a missing date against a one-row table. -/
theorem manage_validation_C9_witness :
    (manage_post ⟨some "add", none, none, none, some "t", none, none⟩ 0
      [⟨1, "2025-10-06", none, "old row", none, none⟩]).1 =
      [⟨1, "2025-10-06", none, "old row", none, none⟩] ∧
    (manage_post ⟨some "add", none, none, none, some "t", none, none⟩ 0
      [⟨1, "2025-10-06", none, "old row", none, none⟩]).2.2 = "error" :=
  manage_validation_C9 ⟨some "add", none, none, none, some "t", none, none⟩ 0
    [⟨1, "2025-10-06", none, "old row", none, none⟩] (Or.inl rfl)

end Reminders
